import Mathlib

/-!
Verification of the Master task-dispatch engine of the pa_market distributed
ID-scanner (src/master/src/main.rs, src/worker/src/main.rs, src/common/src/lib.rs).

The SQLite store is embedded as an explicit state value:
* the `global_cursor` table (single row, `next_start_id`) becomes the field
  `next_start_id`;
* the `task_queue` table becomes a list of `Lease` rows; its
  `AUTOINCREMENT` primary key is modelled by the counter `next_task_id`
  (SQLite assigns max-ever + 1 and never reuses ids after deletes);
* the `valid_results` table becomes the list `valid_results` of ids
  (kept duplicate-free by `insertIgnore`, mirroring `INSERT OR IGNORE`
  on the primary key).

Timestamps (`datetime('now')` strings in SQLite, compared lexicographically,
which for the fixed UTC format coincides with chronological order) are
modelled as integers counting seconds.  All i64 / i32 columns are modelled
as `Int`: every arithmetic operation performed by the code stays far inside
the i64 range (the only multiplication is `last_performance * 30` with
`last_performance : u32`, bounded by 2^32 * 30 < 2^63), so no wrap-around
can occur and `Int` is a faithful embedding.

Each HTTP handler runs its SQL inside one transaction; SQLite serializes
write transactions, so a handler invocation is one atomic state transition.
-/

/-- Row of `task_queue` (struct `TaskRecord` in src/master/src/main.rs). -/
structure Lease where
  task_id : Int
  start_id : Int
  end_id : Int
  worker_id : String
  status : String
  last_heartbeat : Int
  created_at : Int
deriving DecidableEq, Repr

/-- Response body for `/task/acquire` (struct `AcquireTaskResponse` in
src/common/src/lib.rs). -/
structure AcquireTaskResponse where
  task_id : Int
  start_id : Int
  end_id : Int
deriving DecidableEq, Repr

/-- Generic response envelope (struct `ApiResponse` in src/common/src/lib.rs). -/
structure ApiResponse (T : Type) where
  success : Bool
  data : Option T
  error : Option String
deriving DecidableEq, Repr

/-- `ApiResponse::success` constructor from src/common/src/lib.rs. -/
def ApiResponse.mkSuccess {T : Type} (data : T) : ApiResponse T :=
  { success := true, data := some data, error := none }

/-- `ApiResponse::error` constructor from src/common/src/lib.rs. -/
def ApiResponse.mkError {T : Type} (msg : String) : ApiResponse T :=
  { success := false, data := none, error := some msg }

/-- The Master's persistent store: `global_cursor`, `task_queue` (with its
AUTOINCREMENT counter) and `valid_results`. -/
structure MasterState where
  next_start_id : Int
  leases : List Lease
  next_task_id : Int
  valid_results : List Int
deriving DecidableEq, Repr

/-- The store right after `init_database`: cursor 0, no leases, no results;
SQLite AUTOINCREMENT assigns 1 to the first inserted row. -/
def freshState : MasterState :=
  { next_start_id := 0, leases := [], next_task_id := 1, valid_results := [] }

/-- `calculate_batch_size` from src/master/src/main.rs lines 354-363:
`size = (last_performance ?? 100) * 30`, then `size.clamp(1000, 50000)`
(Rust `clamp lo hi` is `min (max x lo) hi` for `lo ≤ hi`). -/
def calculate_batch_size (last_performance : Option Nat) : Int :=
  let base_speed : Int := (last_performance.getD 100 : Nat)
  let size := base_speed * 30
  min (max size 1000) 50000

/-- The SQL timeout predicate `last_heartbeat < datetime('now', '-60 seconds')`
from the `try_acquire_task` query. -/
abbrev timedOut (now : Int) (l : Lease) : Prop :=
  l.last_heartbeat < now - 60

/-- The timeout-recovery SELECT of `try_acquire_task`:
`WHERE last_heartbeat < datetime('now','-60 seconds')
ORDER BY last_heartbeat ASC LIMIT 1` — a timed-out row with minimal
`last_heartbeat` (ties broken arbitrarily by SQLite; the model keeps the
earliest row in table order). -/
def oldestTimedOut (now : Int) : List Lease → Option Lease
  | [] => none
  | l :: ls =>
    match oldestTimedOut now ls with
    | none => if timedOut now l then some l else none
    | some m =>
      if timedOut now l ∧ l.last_heartbeat ≤ m.last_heartbeat then some l else some m

/-- `acquire_new_task` from src/master/src/main.rs lines 425-476: inside one
transaction read the cursor, carve `[start_id, start_id + batch_size - 1]`,
move the cursor to `end_id + 1`, insert a fresh `'running'` lease
(`last_heartbeat = datetime('now')`, `created_at` defaulting to now) whose
`task_id` is assigned by AUTOINCREMENT, and return the new range. -/
def acquire_new_task (s : MasterState) (worker_id : String) (batch_size : Int)
    (now : Int) : MasterState × Option AcquireTaskResponse :=
  let start_id := s.next_start_id
  let end_id := start_id + batch_size - 1
  let task_id := s.next_task_id
  let lease : Lease :=
    { task_id := task_id, start_id := start_id, end_id := end_id,
      worker_id := worker_id, status := "running",
      last_heartbeat := now, created_at := now }
  ({ s with
      next_start_id := end_id + 1,
      next_task_id := task_id + 1,
      leases := s.leases ++ [lease] },
   some { task_id := task_id, start_id := start_id, end_id := end_id })

/-- `try_acquire_task` from src/master/src/main.rs lines 368-422: first look
for a timed-out lease (oldest heartbeat first); if found, rewrite its
`worker_id` and `last_heartbeat` (`UPDATE ... WHERE task_id = ?`) and return
its unchanged range; otherwise fall through to `acquire_new_task`. -/
def try_acquire_task (s : MasterState) (worker_id : String) (batch_size : Int)
    (now : Int) : MasterState × Option AcquireTaskResponse :=
  match oldestTimedOut now s.leases with
  | some task =>
    ({ s with
        leases := s.leases.map (fun l =>
          if l.task_id = task.task_id then
            { l with worker_id := worker_id, last_heartbeat := now }
          else l) },
     some { task_id := task.task_id, start_id := task.start_id,
            end_id := task.end_id })
  | none => acquire_new_task s worker_id batch_size now

/-- The acquire operation as the `acquire_task` handler performs it
(src/master/src/main.rs lines 174-208): compute the batch size from
`last_performance`, then run `try_acquire_task`. -/
def acquire (s : MasterState) (worker_id : String)
    (last_performance : Option Nat) (now : Int) :
    MasterState × Option AcquireTaskResponse :=
  try_acquire_task s worker_id (calculate_batch_size last_performance) now

/-- The full `acquire_task` handler outcome when every store operation
succeeds: HTTP status plus the `ApiResponse` envelope
(src/master/src/main.rs lines 185-199). -/
def acquire_task (s : MasterState) (worker_id : String)
    (last_performance : Option Nat) (now : Int) :
    MasterState × Nat × ApiResponse AcquireTaskResponse :=
  match acquire s worker_id last_performance now with
  | (s1, some task) => (s1, 200, ApiResponse.mkSuccess task)
  | (s1, none) => (s1, 200, ApiResponse.mkError "没有可用的任务")

/-- The `heartbeat` handler (src/master/src/main.rs lines 212-270): one
`UPDATE task_queue SET last_heartbeat = datetime('now')
WHERE task_id = ? AND worker_id = ?`; HTTP 200 when `rows_affected > 0`,
HTTP 404 otherwise.  (The handler also runs a read-only debug SELECT first,
which touches no state.) -/
def heartbeat (s : MasterState) (task_id : Int) (worker_id : String)
    (now : Int) : MasterState × Nat :=
  let rows_affected :=
    (s.leases.filter (fun l => l.task_id == task_id && l.worker_id == worker_id)).length
  let leases := s.leases.map (fun l =>
    if l.task_id == task_id && l.worker_id == worker_id then
      { l with last_heartbeat := now }
    else l)
  ({ s with leases := leases }, if rows_affected > 0 then 200 else 404)

/-- `INSERT OR IGNORE INTO valid_results (id) VALUES (?)`: insert unless the
primary key is already present. -/
def insertIgnore (results : List Int) (id : Int) : List Int :=
  if id ∈ results then results else results ++ [id]

/-- The committed effect of the `submit_result` handler
(src/master/src/main.rs lines 274-349): inside one transaction, insert every
id of `valid_ids` into `valid_results` ignoring conflicts, then
`DELETE FROM task_queue WHERE task_id = ?`. -/
def submit_result (s : MasterState) (task_id : Int) (valid_ids : List Int) :
    MasterState :=
  { s with
      valid_results := valid_ids.foldl insertIgnore s.valid_results,
      leases := s.leases.filter (fun l => l.task_id != task_id) }

/-- A primitive store operation issued by `submit_result` inside its
transaction. -/
inductive TxOp where
  | insertResult (id : Int)
  | deleteLease (task_id : Int)
deriving DecidableEq, Repr

/-- Effect of one transaction operation on the store. -/
def applyTxOp (s : MasterState) : TxOp → MasterState
  | .insertResult id => { s with valid_results := insertIgnore s.valid_results id }
  | .deleteLease task_id =>
    { s with leases := s.leases.filter (fun l => l.task_id != task_id) }

/-- The exact operation sequence `submit_result` issues inside its
transaction: one `INSERT OR IGNORE` per id of `valid_ids` (in order, lines
297-314), then the lease `DELETE` (lines 317-320). -/
def submitOps (task_id : Int) (valid_ids : List Int) : List TxOp :=
  valid_ids.map TxOp.insertResult ++ [TxOp.deleteLease task_id]

/-- Running a transaction body to completion. -/
def runTx (s : MasterState) (ops : List TxOp) : MasterState :=
  ops.foldl applyTxOp s

/-- The `submit_result` handler with a store-failure oracle: `none` means
every operation and the final commit succeed (state `runTx`, HTTP 200);
`some k` means the k-th store call (or the commit) errors, upon which the
handler rolls the transaction back — SQLite discards every uncommitted
write, so the store is exactly the pre-transaction state — and returns
HTTP 500 (lines 305-312, 322-329, 332-338). -/
def submitTx (s : MasterState) (task_id : Int) (valid_ids : List Int)
    (failStep : Option Nat) : MasterState × Nat :=
  match failStep with
  | none => (runTx s (submitOps task_id valid_ids), 200)
  | some _ => (s, 500)

/-- One dispatcher operation, i.e. one Master HTTP request (each runs its
SQL transactionally, hence atomically). -/
inductive Op where
  | acquire (worker_id : String) (last_performance : Option Nat) (now : Int)
  | heartbeat (task_id : Int) (worker_id : String) (now : Int)
  | submit (task_id : Int) (valid_ids : List Int)
deriving DecidableEq, Repr

/-- State transition of one dispatcher operation. -/
def applyOp (s : MasterState) : Op → MasterState
  | .acquire worker_id lp now => (acquire s worker_id lp now).1
  | .heartbeat task_id worker_id now => (heartbeat s task_id worker_id now).1
  | .submit task_id valid_ids => submit_result s task_id valid_ids

/-- The store invariant: every lease is a well-formed interval lying strictly
below the cursor, lease intervals are pairwise disjoint, and lease ids are
pairwise distinct and strictly below the AUTOINCREMENT counter. -/
def StoreInv (s : MasterState) : Prop :=
  (∀ l ∈ s.leases, l.start_id ≤ l.end_id) ∧
  (∀ l ∈ s.leases, l.end_id < s.next_start_id) ∧
  s.leases.Pairwise (fun a b => a.end_id < b.start_id ∨ b.end_id < a.start_id) ∧
  (∀ l ∈ s.leases, l.task_id < s.next_task_id) ∧
  s.leases.Pairwise (fun a b => a.task_id ≠ b.task_id)

instance (s : MasterState) : Decidable (StoreInv s) := by
  unfold StoreInv
  infer_instance

/-- The routes registered by the Master's `main`
(src/master/src/main.rs lines 86-91). -/
def masterRoutes : List String :=
  ["/task/acquire", "/task/heartbeat", "/task/submit"]

/-- Whether the Master's router has a handler for a path. -/
def routeExists (path : String) : Bool :=
  masterRoutes.contains path

/-- HTTP status seen by a client: the handler's status when the route is
registered, axum's fallback 404 otherwise. -/
def httpStatusFor (path : String) (handlerStatus : Nat) : Nat :=
  if routeExists path then handlerStatus else 404

/-- The path the Worker's `release_task` posts to
(src/worker/src/main.rs line 174). -/
def releasePath : String := "/task/release"

/-- reqwest's `error_for_status`: an `Err` exactly on status codes ≥ 400. -/
def error_for_status (status : Nat) : Except Nat Nat :=
  if 400 ≤ status then Except.error status else Except.ok status

/-- Outcome of the Worker's `release_task` (src/worker/src/main.rs lines
164-193) as a function of whatever status a release handler would return:
the request goes to `releasePath` and passes through `error_for_status`. -/
def release_task_outcome (handlerStatus : Nat) : Except Nat Nat :=
  error_for_status (httpStatusFor releasePath handlerStatus)

/-! ## Helper lemmas -/

theorem oldestTimedOut_mem (now : Int) :
    ∀ (ls : List Lease) (m : Lease), oldestTimedOut now ls = some m →
      m ∈ ls ∧ timedOut now m := by
  intro ls
  induction ls with
  | nil => intro m h; simp [oldestTimedOut] at h
  | cons l ls ih =>
    intro m h
    cases hrec : oldestTimedOut now ls with
    | none =>
      simp only [oldestTimedOut, hrec] at h
      by_cases ht : timedOut now l
      · rw [if_pos ht] at h
        cases h
        exact ⟨List.mem_cons_self l ls, ht⟩
      · rw [if_neg ht] at h
        cases h
    | some m0 =>
      simp only [oldestTimedOut, hrec] at h
      by_cases hc : timedOut now l ∧ l.last_heartbeat ≤ m0.last_heartbeat
      · rw [if_pos hc] at h
        cases h
        exact ⟨List.mem_cons_self l ls, hc.1⟩
      · rw [if_neg hc] at h
        cases h
        obtain ⟨hmem, htm⟩ := ih m hrec
        exact ⟨List.mem_cons_of_mem l hmem, htm⟩

theorem oldestTimedOut_eq_none_iff (now : Int) (ls : List Lease) :
    oldestTimedOut now ls = none ↔ ∀ l ∈ ls, ¬ timedOut now l := by
  induction ls with
  | nil => simp [oldestTimedOut]
  | cons l ls ih =>
    cases hrec : oldestTimedOut now ls with
    | none =>
      simp only [oldestTimedOut, hrec]
      by_cases ht : timedOut now l
      · rw [if_pos ht]
        exact iff_of_false (by simp)
          (fun hall => (hall l (List.mem_cons_self l ls)) ht)
      · rw [if_neg ht]
        refine iff_of_true rfl ?_
        intro x hx
        rcases List.mem_cons.1 hx with hx | hx
        · rw [hx]; exact ht
        · exact (ih.1 hrec) x hx
    | some m0 =>
      obtain ⟨hmem, htm⟩ := oldestTimedOut_mem now ls m0 hrec
      have hfalse : ¬ ∀ x ∈ l :: ls, ¬ timedOut now x :=
        fun hall => (hall m0 (List.mem_cons_of_mem l hmem)) htm
      simp only [oldestTimedOut, hrec]
      exact iff_of_false (by split_ifs <;> simp) hfalse

theorem oldestTimedOut_min (now : Int) :
    ∀ (ls : List Lease) (m : Lease), oldestTimedOut now ls = some m →
      ∀ l ∈ ls, timedOut now l → m.last_heartbeat ≤ l.last_heartbeat := by
  intro ls
  induction ls with
  | nil => intro m h; simp [oldestTimedOut] at h
  | cons l ls ih =>
    intro m h x hx htx
    cases hrec : oldestTimedOut now ls with
    | none =>
      simp only [oldestTimedOut, hrec] at h
      by_cases ht : timedOut now l
      · rw [if_pos ht] at h
        cases h
        rcases List.mem_cons.1 hx with hx | hx
        · rw [hx]
        · exact absurd htx (((oldestTimedOut_eq_none_iff now ls).1 hrec) x hx)
      · rw [if_neg ht] at h
        cases h
    | some m0 =>
      simp only [oldestTimedOut, hrec] at h
      by_cases hc : timedOut now l ∧ l.last_heartbeat ≤ m0.last_heartbeat
      · rw [if_pos hc] at h
        cases h
        rcases List.mem_cons.1 hx with hx | hx
        · rw [hx]
        · exact le_trans hc.2 (ih m0 hrec x hx htx)
      · rw [if_neg hc] at h
        cases h
        rcases List.mem_cons.1 hx with hx | hx
        · rw [hx] at htx ⊢
          have : ¬ l.last_heartbeat ≤ m.last_heartbeat := fun hle => hc ⟨htx, hle⟩
          omega
        · exact ih m hrec x hx htx

theorem mem_insertIgnore (R : List Int) (i a : Int) :
    a ∈ insertIgnore R i ↔ a ∈ R ∨ a = i := by
  by_cases h : i ∈ R
  · rw [insertIgnore, if_pos h]
    constructor
    · exact Or.inl
    · rintro (ha | rfl)
      · exact ha
      · exact h
  · rw [insertIgnore, if_neg h]
    simp [List.mem_append]

theorem foldl_insertIgnore_mem (ids : List Int) :
    ∀ (R : List Int) (a : Int),
      a ∈ ids.foldl insertIgnore R ↔ a ∈ R ∨ a ∈ ids := by
  induction ids with
  | nil => simp
  | cons i ids ih =>
    intro R a
    rw [List.foldl_cons, ih, mem_insertIgnore]
    simp only [List.mem_cons]
    tauto

theorem foldl_insertIgnore_of_subset (ids : List Int) :
    ∀ R : List Int, (∀ i ∈ ids, i ∈ R) → ids.foldl insertIgnore R = R := by
  induction ids with
  | nil => intro R _; rfl
  | cons i ids ih =>
    intro R h
    rw [List.foldl_cons]
    have hi : insertIgnore R i = R := by
      rw [insertIgnore, if_pos (h i (List.mem_cons_self i ids))]
    rw [hi]
    exact ih R (fun j hj => h j (List.mem_cons_of_mem i hj))

theorem calculate_batch_size_bounds (lp : Option Nat) :
    1000 ≤ calculate_batch_size lp ∧ calculate_batch_size lp ≤ 50000 := by
  simp only [calculate_batch_size]
  omega

theorem storeInv_map (s : MasterState) (f : Lease → Lease)
    (hid : ∀ l, (f l).task_id = l.task_id)
    (hst : ∀ l, (f l).start_id = l.start_id)
    (hen : ∀ l, (f l).end_id = l.end_id)
    (h : StoreInv s) : StoreInv { s with leases := s.leases.map f } := by
  obtain ⟨h1, h2, h3, h4, h5⟩ := h
  refine ⟨?_, ?_, ?_, ?_, ?_⟩
  · intro l hl
    obtain ⟨x, hx, rfl⟩ := List.mem_map.1 hl
    rw [hst, hen]; exact h1 x hx
  · intro l hl
    obtain ⟨x, hx, rfl⟩ := List.mem_map.1 hl
    rw [hen]; exact h2 x hx
  · rw [List.pairwise_map]
    refine h3.imp ?_
    intro a b hab
    simp only [hst, hen]
    exact hab
  · intro l hl
    obtain ⟨x, hx, rfl⟩ := List.mem_map.1 hl
    rw [hid]; exact h4 x hx
  · rw [List.pairwise_map]
    refine h5.imp ?_
    intro a b hab
    simp only [hid]
    exact hab

theorem storeInv_filter (s : MasterState) (p : Lease → Bool) (vr : List Int)
    (h : StoreInv s) :
    StoreInv { s with leases := s.leases.filter p, valid_results := vr } := by
  obtain ⟨h1, h2, h3, h4, h5⟩ := h
  refine ⟨?_, ?_, ?_, ?_, ?_⟩
  · intro l hl; exact h1 l (List.mem_of_mem_filter hl)
  · intro l hl; exact h2 l (List.mem_of_mem_filter hl)
  · exact h3.sublist (List.filter_sublist _)
  · intro l hl; exact h4 l (List.mem_of_mem_filter hl)
  · exact h5.sublist (List.filter_sublist _)

theorem try_acquire_task_timeout (s : MasterState) (wid : String) (b now : Int)
    (t : Lease) (h : oldestTimedOut now s.leases = some t) :
    try_acquire_task s wid b now =
      ({ s with leases := s.leases.map (fun l =>
          if l.task_id = t.task_id then
            { l with worker_id := wid, last_heartbeat := now }
          else l) },
       some { task_id := t.task_id, start_id := t.start_id, end_id := t.end_id }) := by
  simp only [try_acquire_task, h]

theorem try_acquire_task_no_timeout (s : MasterState) (wid : String) (b now : Int)
    (h : oldestTimedOut now s.leases = none) :
    try_acquire_task s wid b now = acquire_new_task s wid b now := by
  simp only [try_acquire_task, h]

theorem storeInv_acquire_new (s : MasterState) (wid : String) (b now : Int)
    (hb : 1 ≤ b) (h : StoreInv s) :
    StoreInv (acquire_new_task s wid b now).1 ∧
    s.next_start_id ≤ (acquire_new_task s wid b now).1.next_start_id := by
  obtain ⟨h1, h2, h3, h4, h5⟩ := h
  simp only [acquire_new_task]
  constructor
  · refine ⟨?_, ?_, ?_, ?_, ?_⟩
    · intro l hl
      rcases List.mem_append.1 hl with hl | hl
      · exact h1 l hl
      · rcases List.mem_singleton.1 hl with rfl
        show s.next_start_id ≤ s.next_start_id + b - 1
        omega
    · intro l hl
      rcases List.mem_append.1 hl with hl | hl
      · have := h2 l hl
        show l.end_id < s.next_start_id + b - 1 + 1
        omega
      · rcases List.mem_singleton.1 hl with rfl
        show s.next_start_id + b - 1 < s.next_start_id + b - 1 + 1
        omega
    · rw [List.pairwise_append]
      refine ⟨h3, List.pairwise_singleton _ _, ?_⟩
      intro a ha b' hb'
      rcases List.mem_singleton.1 hb' with rfl
      left
      show a.end_id < s.next_start_id
      exact h2 a ha
    · intro l hl
      rcases List.mem_append.1 hl with hl | hl
      · have := h4 l hl
        show l.task_id < s.next_task_id + 1
        omega
      · rcases List.mem_singleton.1 hl with rfl
        show s.next_task_id < s.next_task_id + 1
        omega
    · rw [List.pairwise_append]
      refine ⟨h5, List.pairwise_singleton _ _, ?_⟩
      intro a ha b' hb'
      rcases List.mem_singleton.1 hb' with rfl
      have := h4 a ha
      show a.task_id ≠ s.next_task_id
      omega
  · show s.next_start_id ≤ s.next_start_id + b - 1 + 1
    omega

theorem storeInv_applyOp (s : MasterState) (op : Op) (h : StoreInv s) :
    StoreInv (applyOp s op) ∧ s.next_start_id ≤ (applyOp s op).next_start_id := by
  cases op with
  | acquire wid lp now =>
    simp only [applyOp, acquire]
    cases hsel : oldestTimedOut now s.leases with
    | some t =>
      rw [try_acquire_task_timeout s wid (calculate_batch_size lp) now t hsel]
      refine ⟨storeInv_map s _ ?_ ?_ ?_ h, le_refl _⟩
      all_goals
        intro l
        by_cases hc : l.task_id = t.task_id <;> simp [hc]
    | none =>
      rw [try_acquire_task_no_timeout s wid (calculate_batch_size lp) now hsel]
      exact storeInv_acquire_new s wid _ now
        (le_trans (by norm_num) (calculate_batch_size_bounds lp).1) h
  | heartbeat tid wid now =>
    simp only [applyOp, heartbeat]
    refine ⟨storeInv_map s _ ?_ ?_ ?_ h, le_refl _⟩
    all_goals
      intro l
      by_cases hc : (l.task_id == tid && l.worker_id == wid) = true <;> simp [hc]
  | submit tid ids =>
    simp only [applyOp, submit_result]
    exact ⟨storeInv_filter s _ _ h, le_refl _⟩

theorem acquire_result_cases (s : MasterState) (wid : String) (lp : Option Nat)
    (now : Int) (t : AcquireTaskResponse)
    (h : (acquire s wid lp now).2 = some t) :
    (∃ T ∈ s.leases, timedOut now T ∧ t.task_id = T.task_id) ∨
    t.task_id = s.next_task_id := by
  cases hsel : oldestTimedOut now s.leases with
  | some T =>
    obtain ⟨hm, ht⟩ := oldestTimedOut_mem now s.leases T hsel
    rw [show acquire s wid lp now = _ from
      try_acquire_task_timeout s wid (calculate_batch_size lp) now T hsel] at h
    cases h
    exact Or.inl ⟨T, hm, ht, rfl⟩
  | none =>
    rw [show acquire s wid lp now = _ from
      try_acquire_task_no_timeout s wid (calculate_batch_size lp) now hsel] at h
    simp only [acquire_new_task] at h
    cases h
    exact Or.inr rfl

theorem acquire_timedOut_ne (s : MasterState) (wid : String) (lp : Option Nat)
    (now : Int) (t : AcquireTaskResponse)
    (hids : ∀ l ∈ s.leases, l.task_id < s.next_task_id)
    (h : (acquire s wid lp now).2 = some t) :
    ∀ x ∈ (acquire s wid lp now).1.leases, timedOut now x → x.task_id ≠ t.task_id := by
  cases hsel : oldestTimedOut now s.leases with
  | some T =>
    rw [show acquire s wid lp now = _ from
      try_acquire_task_timeout s wid (calculate_batch_size lp) now T hsel] at h ⊢
    cases h
    intro x hx htx
    obtain ⟨l, hl, rfl⟩ := List.mem_map.1 hx
    by_cases hc : l.task_id = T.task_id
    · simp only [if_pos hc] at htx
      simp only [timedOut] at htx
      omega
    · simp only [if_neg hc]
      exact hc
  | none =>
    rw [show acquire s wid lp now = _ from
      try_acquire_task_no_timeout s wid (calculate_batch_size lp) now hsel] at h ⊢
    simp only [acquire_new_task] at h ⊢
    cases h
    intro x hx htx
    rcases List.mem_append.1 hx with hx | hx
    · have := hids x hx
      show x.task_id ≠ s.next_task_id
      omega
    · rcases List.mem_singleton.1 hx with rfl
      simp only [timedOut] at htx
      omega

theorem acquire_next_task_id_lt (s : MasterState) (wid : String) (lp : Option Nat)
    (now : Int) (t : AcquireTaskResponse)
    (hids : ∀ l ∈ s.leases, l.task_id < s.next_task_id)
    (h : (acquire s wid lp now).2 = some t) :
    t.task_id < (acquire s wid lp now).1.next_task_id := by
  cases hsel : oldestTimedOut now s.leases with
  | some T =>
    obtain ⟨hm, _⟩ := oldestTimedOut_mem now s.leases T hsel
    rw [show acquire s wid lp now = _ from
      try_acquire_task_timeout s wid (calculate_batch_size lp) now T hsel] at h ⊢
    cases h
    exact hids T hm
  | none =>
    rw [show acquire s wid lp now = _ from
      try_acquire_task_no_timeout s wid (calculate_batch_size lp) now hsel] at h ⊢
    simp only [acquire_new_task] at h ⊢
    cases h
    show s.next_task_id < s.next_task_id + 1
    omega

theorem acquire_isSome (s : MasterState) (wid : String) (lp : Option Nat)
    (now : Int) : ∃ t : AcquireTaskResponse, (acquire s wid lp now).2 = some t := by
  cases hsel : oldestTimedOut now s.leases with
  | some T =>
    refine ⟨{ task_id := T.task_id, start_id := T.start_id, end_id := T.end_id }, ?_⟩
    rw [show acquire s wid lp now = _ from
      try_acquire_task_timeout s wid (calculate_batch_size lp) now T hsel]
  | none =>
    refine ⟨{ task_id := s.next_task_id, start_id := s.next_start_id,
              end_id := s.next_start_id + calculate_batch_size lp - 1 }, ?_⟩
    rw [show acquire s wid lp now = _ from
      try_acquire_task_no_timeout s wid (calculate_batch_size lp) now hsel]
    rfl

theorem runTx_inserts (ids : List Int) :
    ∀ s : MasterState, runTx s (ids.map TxOp.insertResult) =
      { s with valid_results := ids.foldl insertIgnore s.valid_results } := by
  induction ids with
  | nil => intro s; rfl
  | cons i ids ih =>
    intro s
    rw [List.map_cons, runTx, List.foldl_cons]
    show runTx (applyTxOp s (TxOp.insertResult i)) (ids.map TxOp.insertResult) = _
    rw [ih]
    rfl

theorem map_id_of_eq {α : Type} (l : List α) (f : α → α) (h : ∀ a ∈ l, f a = a) :
    l.map f = l := by
  induction l with
  | nil => rfl
  | cons a l ih =>
    rw [List.map_cons, h a (List.mem_cons_self a l),
      ih (fun b hb => h b (List.mem_cons_of_mem a hb))]

theorem filter_nil_of_none {α : Type} (l : List α) (p : α → Bool)
    (h : ∀ a ∈ l, p a = false) : l.filter p = [] := by
  induction l with
  | nil => rfl
  | cons a l ih =>
    rw [List.filter_cons, h a (List.mem_cons_self a l)]
    simp only [Bool.false_eq_true, if_false]
    exact ih (fun b hb => h b (List.mem_cons_of_mem a hb))

/-! ## Claims -/

/-- C1: when no lease is timed out at `now`, for every `worker_id` and every
`batch_size` the acquire path carves the range
`[next_start_id, next_start_id + batch_size - 1]`, moves the cursor to
`end_id + 1` and appends a fresh `"running"` lease; in particular, from a
fresh store an acquire with `last_performance = null` yields
`{task_id := 1, start_id := 0, end_id := 2999}` and leaves the cursor at
3000. -/
theorem acquire_no_timeout_carves_new_range (s : MasterState) (wid : String)
    (b now : Int) (hno : ∀ l ∈ s.leases, ¬ timedOut now l) :
    try_acquire_task s wid b now =
      ({ s with
          next_start_id := s.next_start_id + b - 1 + 1,
          next_task_id := s.next_task_id + 1,
          leases := s.leases ++
            [{ task_id := s.next_task_id,
               start_id := s.next_start_id,
               end_id := s.next_start_id + b - 1,
               worker_id := wid, status := "running",
               last_heartbeat := now, created_at := now }] },
       some { task_id := s.next_task_id, start_id := s.next_start_id,
              end_id := s.next_start_id + b - 1 }) ∧
    acquire freshState "W1" none 0 =
      ({ next_start_id := 3000,
         leases := [{ task_id := 1, start_id := 0, end_id := 2999,
                      worker_id := "W1", status := "running",
                      last_heartbeat := 0, created_at := 0 }],
         next_task_id := 2, valid_results := [] },
       some { task_id := 1, start_id := 0, end_id := 2999 }) := by
  constructor
  · rw [try_acquire_task_no_timeout s wid b now
      ((oldestTimedOut_eq_none_iff now s.leases).2 hno)]
    rfl
  · decide

theorem acquire_no_timeout_carves_new_range_witness :
    (∀ l ∈ freshState.leases, ¬ timedOut 0 l) ∧
    (try_acquire_task freshState "W1" 3000 0 =
      ({ freshState with
          next_start_id := freshState.next_start_id + 3000 - 1 + 1,
          next_task_id := freshState.next_task_id + 1,
          leases := freshState.leases ++
            [{ task_id := freshState.next_task_id,
               start_id := freshState.next_start_id,
               end_id := freshState.next_start_id + 3000 - 1,
               worker_id := "W1", status := "running",
               last_heartbeat := 0, created_at := 0 }] },
       some { task_id := freshState.next_task_id,
              start_id := freshState.next_start_id,
              end_id := freshState.next_start_id + 3000 - 1 }) ∧
    acquire freshState "W1" none 0 =
      ({ next_start_id := 3000,
         leases := [{ task_id := 1, start_id := 0, end_id := 2999,
                      worker_id := "W1", status := "running",
                      last_heartbeat := 0, created_at := 0 }],
         next_task_id := 2, valid_results := [] },
       some { task_id := 1, start_id := 0, end_id := 2999 })) :=
  ⟨by decide, acquire_no_timeout_carves_new_range freshState "W1" 3000 0 (by decide)⟩

/-- C2: the width of every newly carved range equals
`clamp(30 × last_performance, 1000, 50000)` with 100 substituted when
`last_performance` is absent; in particular the width for `null` is 3000. -/
theorem batch_width_clamp :
    (∀ (s : MasterState) (wid : String) (lp : Option Nat) (now : Int),
      ∃ t : AcquireTaskResponse,
        (acquire_new_task s wid (calculate_batch_size lp) now).2 = some t ∧
        t.end_id - t.start_id + 1 =
          max 1000 (min (30 * ((lp.getD 100 : Nat) : Int)) 50000)) ∧
    calculate_batch_size none = 3000 := by
  constructor
  · intro s wid lp now
    refine ⟨{ task_id := s.next_task_id, start_id := s.next_start_id,
              end_id := s.next_start_id + calculate_batch_size lp - 1 }, rfl, ?_⟩
    show s.next_start_id + calculate_batch_size lp - 1 - s.next_start_id + 1 = _
    simp only [calculate_batch_size]
    omega
  · decide

/-- The S4 scenario lease: `{task_id: 5, start_id: 100, end_id: 199,
worker_id: "A"}` whose heartbeat (39) is 61 seconds older than `now = 100`. -/
def timeoutDemoLease : Lease :=
  { task_id := 5, start_id := 100, end_id := 199, worker_id := "A",
    status := "running", last_heartbeat := 39, created_at := 0 }

/-- The S4 scenario store: cursor at 10000, the single stale lease above. -/
def timeoutDemoState : MasterState :=
  { next_start_id := 10000, leases := [timeoutDemoLease], next_task_id := 6,
    valid_results := [] }

/-- C3: when some lease is timed out, acquire picks a timed-out lease with
the smallest `last_heartbeat`, rewrites only its `worker_id` and
`last_heartbeat`, returns its unchanged range, and leaves the cursor, the
AUTOINCREMENT counter and the number of leases unchanged. -/
theorem acquire_timeout_releases_oldest (s : MasterState) (wid : String)
    (lp : Option Nat) (now : Int) (t : Lease)
    (h : oldestTimedOut now s.leases = some t) :
    t ∈ s.leases ∧ timedOut now t ∧
    (∀ l ∈ s.leases, timedOut now l → t.last_heartbeat ≤ l.last_heartbeat) ∧
    acquire s wid lp now =
      ({ s with leases := s.leases.map (fun l =>
          if l.task_id = t.task_id then
            { l with worker_id := wid, last_heartbeat := now }
          else l) },
       some { task_id := t.task_id, start_id := t.start_id, end_id := t.end_id }) ∧
    (acquire s wid lp now).1.next_start_id = s.next_start_id ∧
    (acquire s wid lp now).1.next_task_id = s.next_task_id ∧
    (acquire s wid lp now).1.leases.length = s.leases.length := by
  obtain ⟨hm, ht⟩ := oldestTimedOut_mem now s.leases t h
  have heq : acquire s wid lp now = _ :=
    try_acquire_task_timeout s wid (calculate_batch_size lp) now t h
  refine ⟨hm, ht, oldestTimedOut_min now s.leases t h, heq, ?_, ?_, ?_⟩
  all_goals rw [heq]
  all_goals simp

theorem acquire_timeout_releases_oldest_witness :
    oldestTimedOut 100 timeoutDemoState.leases = some timeoutDemoLease ∧
    (timeoutDemoLease ∈ timeoutDemoState.leases ∧
     timedOut 100 timeoutDemoLease ∧
     (∀ l ∈ timeoutDemoState.leases, timedOut 100 l →
        timeoutDemoLease.last_heartbeat ≤ l.last_heartbeat) ∧
     acquire timeoutDemoState "B" none 100 =
       ({ timeoutDemoState with leases := timeoutDemoState.leases.map (fun l =>
           if l.task_id = timeoutDemoLease.task_id then
             { l with worker_id := "B", last_heartbeat := 100 }
           else l) },
        some { task_id := timeoutDemoLease.task_id,
               start_id := timeoutDemoLease.start_id,
               end_id := timeoutDemoLease.end_id }) ∧
     (acquire timeoutDemoState "B" none 100).1.next_start_id =
       timeoutDemoState.next_start_id ∧
     (acquire timeoutDemoState "B" none 100).1.next_task_id =
       timeoutDemoState.next_task_id ∧
     (acquire timeoutDemoState "B" none 100).1.leases.length =
       timeoutDemoState.leases.length) :=
  ⟨by decide,
   acquire_timeout_releases_oldest timeoutDemoState "B" none 100 timeoutDemoLease
     (by decide)⟩

/-- The S5 scenario store: lease 2 over `[3000, 8999]` outstanding, no
results yet. -/
def submitDemoState : MasterState :=
  { next_start_id := 9000,
    leases := [{ task_id := 2, start_id := 3000, end_id := 8999,
                 worker_id := "W1", status := "running",
                 last_heartbeat := 0, created_at := 0 }],
    next_task_id := 3, valid_results := [] }

/-- C4: submit is idempotent on the store — submitting the same
`(task_id, valid_ids)` twice equals submitting it once (a repeated submit
re-inserts already-present ids, which conflict-ignore absorbs, and deletes
an already-deleted lease, which is a no-op); duplicates inside one batch are
absorbed, e.g. `submit(2, [3100, 3500, 3500])` leaves results
`{3100, 3500}` and removes lease 2. -/
theorem submit_idempotent :
    (∀ (s : MasterState) (task_id : Int) (valid_ids : List Int),
      submit_result (submit_result s task_id valid_ids) task_id valid_ids =
        submit_result s task_id valid_ids) ∧
    (submit_result submitDemoState 2 [3100, 3500, 3500]).valid_results =
      [3100, 3500] ∧
    (submit_result submitDemoState 2 [3100, 3500, 3500]).leases = [] := by
  refine ⟨?_, by decide, by decide⟩
  intro s tid ids
  simp only [submit_result]
  congr 1
  · simp [List.filter_filter]
  · exact foldl_insertIgnore_of_subset ids _
      (fun i hi => (foldl_insertIgnore_mem ids s.valid_results i).2 (Or.inr hi))

/-- C5: submit's committed effect equals running its transaction script, in
which every `ValidResult` insert strictly precedes the lease delete (the
delete is the last operation, everything before it is an insert); a failure
at any store step rolls the whole transaction back, leaving the store — in
particular the lease table — unchanged, so an interrupted submit leaves the
lease intact for timeout recovery. -/
theorem submit_transactional_order :
    (∀ (s : MasterState) (task_id : Int) (valid_ids : List Int),
      submit_result s task_id valid_ids = runTx s (submitOps task_id valid_ids)) ∧
    (∀ (task_id : Int) (valid_ids : List Int),
      (submitOps task_id valid_ids).getLast? = some (TxOp.deleteLease task_id) ∧
      (submitOps task_id valid_ids).dropLast = valid_ids.map TxOp.insertResult) ∧
    (∀ (s : MasterState) (task_id : Int) (valid_ids : List Int),
      submitTx s task_id valid_ids none = (submit_result s task_id valid_ids, 200)) ∧
    (∀ (s : MasterState) (task_id : Int) (valid_ids : List Int) (k : Nat),
      submitTx s task_id valid_ids (some k) = (s, 500)) := by
  have hrun : ∀ (s : MasterState) (tid : Int) (ids : List Int),
      submit_result s tid ids = runTx s (submitOps tid ids) := by
    intro s tid ids
    rw [submitOps]
    show submit_result s tid ids =
      runTx s (ids.map TxOp.insertResult ++ [TxOp.deleteLease tid])
    rw [runTx, List.foldl_append]
    show submit_result s tid ids =
      applyTxOp (runTx s (ids.map TxOp.insertResult)) (TxOp.deleteLease tid)
    rw [runTx_inserts ids s]
    rfl
  refine ⟨hrun, ?_, ?_, ?_⟩
  · intro tid ids
    exact ⟨List.getLast?_concat _, List.dropLast_concat ..⟩
  · intro s tid ids
    show (runTx s (submitOps tid ids), 200) = _
    rw [hrun]
  · intro s tid ids k
    rfl

/-- The S6 scenario store: after the S4 re-lease, lease 5 is held by worker
`"B"` with a fresh heartbeat. -/
def staleWorkerState : MasterState :=
  { next_start_id := 10000,
    leases := [{ task_id := 5, start_id := 100, end_id := 199,
                 worker_id := "B", status := "running",
                 last_heartbeat := 100, created_at := 0 }],
    next_task_id := 6, valid_results := [] }

/-- C6: heartbeat answers 200 and refreshes `last_heartbeat` exactly when a
lease row matches both `task_id` and `worker_id`; otherwise it answers 404
and leaves the store untouched — in particular, after the S4 re-lease to
worker `"B"`, a heartbeat from the previous worker `"A"` gets 404 and
mutates nothing. -/
theorem heartbeat_matches_iff (s : MasterState) (task_id : Int) (wid : String)
    (now : Int) :
    ((heartbeat s task_id wid now).2 =
      if ∃ l ∈ s.leases, l.task_id = task_id ∧ l.worker_id = wid
      then 200 else 404) ∧
    ((heartbeat s task_id wid now).1 =
      if ∃ l ∈ s.leases, l.task_id = task_id ∧ l.worker_id = wid then
        { s with leases := s.leases.map (fun l =>
            if l.task_id == task_id && l.worker_id == wid then
              { l with last_heartbeat := now }
            else l) }
      else s) ∧
    heartbeat staleWorkerState 5 "A" 100 = (staleWorkerState, 404) := by
  by_cases hx : ∃ l ∈ s.leases, l.task_id = task_id ∧ l.worker_id = wid
  · have hpos :
        0 < (s.leases.filter
          (fun l => l.task_id == task_id && l.worker_id == wid)).length := by
      obtain ⟨l, hl, h1, h2⟩ := hx
      have hmem : l ∈ s.leases.filter
          (fun l => l.task_id == task_id && l.worker_id == wid) :=
        List.mem_filter.2 ⟨hl, by simp [h1, h2]⟩
      exact List.length_pos.2 (List.ne_nil_of_mem hmem)
    refine ⟨?_, ?_, by decide⟩
    · show (if 0 < (s.leases.filter
          (fun l => l.task_id == task_id && l.worker_id == wid)).length
        then (200 : Nat) else 404) = _
      rw [if_pos hpos, if_pos hx]
    · rw [if_pos hx]
      rfl
  · have hzero : (s.leases.filter
        (fun l => l.task_id == task_id && l.worker_id == wid)) = [] := by
      refine filter_nil_of_none _ _ ?_
      intro a ha
      by_contra hpa
      rw [Bool.not_eq_false] at hpa
      simp only [Bool.and_eq_true, beq_iff_eq] at hpa
      exact hx ⟨a, ha, hpa.1, hpa.2⟩
    refine ⟨?_, ?_, by decide⟩
    · show (if 0 < (s.leases.filter
          (fun l => l.task_id == task_id && l.worker_id == wid)).length
        then (200 : Nat) else 404) = _
      rw [hzero, if_neg hx]
      rfl
    · rw [if_neg hx]
      show ({ s with leases := s.leases.map (fun l =>
          if l.task_id == task_id && l.worker_id == wid then
            { l with last_heartbeat := now }
          else l) } : MasterState) = s
      have hmap : s.leases.map (fun l =>
          if l.task_id == task_id && l.worker_id == wid then
            { l with last_heartbeat := now }
          else l) = s.leases := by
        refine map_id_of_eq _ _ ?_
        intro a ha
        rw [if_neg]
        intro hcond
        simp only [Bool.and_eq_true, beq_iff_eq] at hcond
        exact hx ⟨a, ha, hcond.1, hcond.2⟩
      rw [hmap]

/-- C7: every dispatcher operation preserves the store invariant (lease
intervals pairwise disjoint and strictly below the cursor) and never
decreases `next_start_id`; moreover any range an acquire returns is either
exactly an existing lease's interval (timeout re-lease) or starts at the
cursor and lies strictly above every lease interval (fresh carve), so the
ranges returned over a run are pairwise disjoint except for re-leases that
repeat an interval. -/
theorem dispatcher_preserves_invariant (s : MasterState) (op : Op)
    (h : StoreInv s) :
    StoreInv (applyOp s op) ∧
    s.next_start_id ≤ (applyOp s op).next_start_id ∧
    (∀ (wid : String) (lp : Option Nat) (now : Int) (r : AcquireTaskResponse),
      (acquire s wid lp now).2 = some r →
        (∃ l ∈ s.leases, r.task_id = l.task_id ∧ r.start_id = l.start_id ∧
          r.end_id = l.end_id) ∨
        (r.start_id = s.next_start_id ∧
         ∀ l ∈ s.leases, l.end_id < r.start_id)) := by
  obtain ⟨hInv, hmono⟩ := storeInv_applyOp s op h
  refine ⟨hInv, hmono, ?_⟩
  intro wid lp now r hr
  cases hsel : oldestTimedOut now s.leases with
  | some t =>
    obtain ⟨hm, _⟩ := oldestTimedOut_mem now s.leases t hsel
    rw [show acquire s wid lp now = _ from
      try_acquire_task_timeout s wid (calculate_batch_size lp) now t hsel] at hr
    cases hr
    exact Or.inl ⟨t, hm, rfl, rfl, rfl⟩
  | none =>
    rw [show acquire s wid lp now = _ from
      try_acquire_task_no_timeout s wid (calculate_batch_size lp) now hsel] at hr
    simp only [acquire_new_task] at hr
    cases hr
    exact Or.inr ⟨rfl, fun l hl => h.2.1 l hl⟩

theorem dispatcher_preserves_invariant_witness :
    StoreInv timeoutDemoState ∧
    (StoreInv (applyOp timeoutDemoState (Op.acquire "B" (some 200) 100)) ∧
     timeoutDemoState.next_start_id ≤
       (applyOp timeoutDemoState (Op.acquire "B" (some 200) 100)).next_start_id ∧
     (∀ (wid : String) (lp : Option Nat) (now : Int) (r : AcquireTaskResponse),
       (acquire timeoutDemoState wid lp now).2 = some r →
         (∃ l ∈ timeoutDemoState.leases, r.task_id = l.task_id ∧
           r.start_id = l.start_id ∧ r.end_id = l.end_id) ∨
         (r.start_id = timeoutDemoState.next_start_id ∧
          ∀ l ∈ timeoutDemoState.leases, l.end_id < r.start_id))) :=
  ⟨by decide, dispatcher_preserves_invariant timeoutDemoState
    (Op.acquire "B" (some 200) 100) (by decide)⟩

/-- C8: two acquires executed back to back (the serialization any
interleaving of the two transactions reduces to) never hand out the same
`task_id`: a re-lease refreshes the heartbeat so the same lease cannot be
re-leased again at the same instant, and a fresh carve uses the strictly
increasing AUTOINCREMENT counter. -/
theorem no_double_lease (s : MasterState) (w1 w2 : String)
    (lp1 lp2 : Option Nat) (now : Int) (t1 t2 : AcquireTaskResponse)
    (hids : ∀ l ∈ s.leases, l.task_id < s.next_task_id)
    (h1 : (acquire s w1 lp1 now).2 = some t1)
    (h2 : (acquire (acquire s w1 lp1 now).1 w2 lp2 now).2 = some t2) :
    t1.task_id ≠ t2.task_id := by
  rcases acquire_result_cases _ w2 lp2 now t2 h2 with ⟨T2, hT2mem, hT2timed, hT2id⟩ | hid2
  · have hne := acquire_timedOut_ne s w1 lp1 now t1 hids h1 T2 hT2mem hT2timed
    rw [hT2id]
    exact fun he => hne he.symm
  · have hlt := acquire_next_task_id_lt s w1 lp1 now t1 hids h1
    rw [hid2]
    omega

theorem no_double_lease_witness :
    (∀ l ∈ freshState.leases, l.task_id < freshState.next_task_id) ∧
    (acquire freshState "w1" none 0).2 =
      some { task_id := 1, start_id := 0, end_id := 2999 } ∧
    (acquire (acquire freshState "w1" none 0).1 "w2" none 0).2 =
      some { task_id := 2, start_id := 3000, end_id := 5999 } ∧
    ({ task_id := 1, start_id := 0, end_id := 2999 } :
        AcquireTaskResponse).task_id ≠
      ({ task_id := 2, start_id := 3000, end_id := 5999 } :
        AcquireTaskResponse).task_id :=
  ⟨by decide, by decide, by decide,
   no_double_lease freshState "w1" "w2" none none 0
     { task_id := 1, start_id := 0, end_id := 2999 }
     { task_id := 2, start_id := 3000, end_id := 5999 }
     (by decide) (by decide) (by decide)⟩

/-- C9: when every store operation succeeds, acquire always produces a task
(a re-leased timed-out one or a freshly carved range): the handler's
`Ok(None)` branch — `success = false` with HTTP 200 — is unreachable,
because the new-range phase always carves from the unbounded cursor. -/
theorem acquire_always_yields_task (s : MasterState) (wid : String)
    (lp : Option Nat) (now : Int) :
    ∃ t : AcquireTaskResponse,
      (acquire s wid lp now).2 = some t ∧
      acquire_task s wid lp now =
        ((acquire s wid lp now).1, 200, ApiResponse.mkSuccess t) ∧
      (acquire_task s wid lp now).2.2.success = true := by
  obtain ⟨t, ht⟩ := acquire_isSome s wid lp now
  rcases hacq : acquire s wid lp now with ⟨s1, r⟩
  rw [hacq] at ht
  have hr : r = some t := ht
  subst hr
  refine ⟨t, rfl, ?_, ?_⟩
  · simp only [acquire_task, hacq]
  · simp only [acquire_task, hacq]
    rfl

/-- C10: the Master registers only the acquire, heartbeat and submit routes
— there is no `/task/release` handler — so the Worker's best-effort release
during forced shutdown always fails with axum's fallback 404 through
`error_for_status`; a forcibly abandoned lease therefore keeps its old
heartbeat and becomes reassignable only through the 60-second timeout
(timeout recovery only ever selects leases whose heartbeat is strictly
older than `now - 60`), never immediately. -/
theorem release_route_missing :
    routeExists releasePath = false ∧
    (∀ handlerStatus : Nat,
      release_task_outcome handlerStatus = Except.error 404) ∧
    (∀ (now : Int) (ls : List Lease) (t : Lease),
      oldestTimedOut now ls = some t → t.last_heartbeat < now - 60) := by
  refine ⟨by decide, ?_, ?_⟩
  · intro hs
    rfl
  · intro now ls t h
    exact (oldestTimedOut_mem now ls t h).2

theorem release_route_missing_witness :
    oldestTimedOut 100 [timeoutDemoLease] = some timeoutDemoLease ∧
    timeoutDemoLease.last_heartbeat < 100 - 60 :=
  ⟨by decide,
   release_route_missing.2.2 100 [timeoutDemoLease] timeoutDemoLease (by decide)⟩
